import Mathlib

/-!
Verification of the NewsScraper extraction engine.

This file is a shallow embedding of the scraping backend found in
`NewsScraper/server.js` (the primary variant) together with the pieces of
the two secondary variants (the capped serverless handler and the extended
handler with body extraction) that differ from it.  The HTML document is
modelled abstractly as a query interface (`Doc`): `doc.query sel` is the
list of elements matched by the CSS selector string `sel` in document
order, exactly the data the source reads through cheerio.  Platform
primitives that the source calls (WHATWG URL resolution `new URL(href,
base).href` and JavaScript `Date` parsing) are passed in as explicit
function parameters (`resolve`, `parseDate`); everything else is
translated directly from the JavaScript.
-/

/-! ## String scanning helpers

The source tests substring containment with `String.prototype.includes`
and runs two regexes (`/\d{4}\/\d{2}\/\d{2}/` on candidate article URLs,
`/\.(jpg|jpeg|png|gif|webp)(\?.*)?$/i` on candidate image URLs, and a
date-extraction regex).  We implement these as executable scanners over
`List Char`.  One deliberate simplification: JavaScript `.` does not match
line terminators; here it matches any character.  No claim distinguishes
the two readings.
-/

/-- Does `p` occur as a leading block of `l`? (`l = p ++ _`). -/
def hasPreB (p : List Char) (l : List Char) : Bool :=
  match p, l with
  | [], _ => true
  | _ :: _, [] => false
  | a :: p, b :: l => a == b && hasPreB p l

/-- Does `p` occur as a contiguous block anywhere in `l`? -/
def hasInB (p : List Char) (l : List Char) : Bool :=
  match l with
  | [] => hasPreB p []
  | _ :: l2 => hasPreB p l || hasInB p l2

/-- `String.prototype.includes(pat)` from the source. -/
def containsSub (s pat : String) : Bool :=
  hasInB pat.data s.data

/-- `String.prototype.startsWith(pre)` from the source. -/
def jsStartsWith (s pre : String) : Bool :=
  hasPreB pre.data s.data

/-- Strip leading and trailing whitespace from a character list. -/
def jsTrimList (l : List Char) : List Char :=
  ((l.dropWhile Char.isWhitespace).reverse.dropWhile Char.isWhitespace).reverse

/-- `String.prototype.trim()` from the source. -/
def jsTrim (s : String) : String :=
  String.mk (jsTrimList s.data)

/-- Consume exactly `n` decimal digits from the front, returning them and the rest. -/
def takeExactDigits : Nat → List Char → Option (List Char × List Char)
  | 0, cs => some ([], cs)
  | _ + 1, [] => none
  | n + 1, c :: cs =>
    if c.isDigit then (takeExactDigits n cs).map (fun p => (c :: p.1, p.2)) else none

/-- Is `c` one of the date separators `[dash or slash]` of the date-extraction regex? -/
def isSep (c : Char) : Bool := c == '-' || c == '/'

/-- Match `\d{1,2}[dash or slash]` at the front (greedy, with the regex backtrack from two
digits to one), returning consumed characters and the rest. -/
def digits12ThenSep : List Char → Option (List Char × List Char)
  | a :: b :: rest =>
    if a.isDigit then
      match rest with
      | c :: rest2 =>
        if b.isDigit && isSep c then some ([a, b, c], rest2)
        else if isSep b then some ([a, b], c :: rest2)
        else none
      | [] => if isSep b then some ([a, b], []) else none
    else none
  | _ => none

/-- Match a final `\d{1,2}` at the front (greedy), returning consumed characters. -/
def digits12 : List Char → Option (List Char × List Char)
  | a :: b :: rest =>
    if a.isDigit then
      if b.isDigit then some ([a, b], rest) else some ([a], b :: rest)
    else none
  | [a] => if a.isDigit then some ([a], []) else none
  | [] => none

/-- Match `\d{4}[dash or slash]\d{1,2}[dash or slash]\d{1,2}` at the current position. -/
def matchAlt1 (cs : List Char) : Option (List Char) :=
  match takeExactDigits 4 cs with
  | some (d4, c :: r1) =>
    if isSep c then
      match digits12ThenSep r1 with
      | some (mid, r2) =>
        match digits12 r2 with
        | some (d3, _) => some (d4 ++ c :: (mid ++ d3))
        | none => none
      | none => none
    else none
  | _ => none

/-- Match `\d{1,2}[dash or slash]\d{1,2}[dash or slash]\d{4}` at the current position. -/
def matchAlt2 (cs : List Char) : Option (List Char) :=
  match digits12ThenSep cs with
  | some (g1, r1) =>
    match digits12ThenSep r1 with
    | some (g2, r2) =>
      match takeExactDigits 4 r2 with
      | some (d4, _) => some (g1 ++ g2 ++ d4)
      | none => none
    | none => none
  | none => none

/-- Unanchored search for the date-extraction regex
`/(\d{4}[dash or slash]\d{1,2}[dash or slash]\d{1,2})|(\d{1,2}[dash or slash]\d{1,2}[dash or slash]\d{4})/`, returning the
matched substring (leftmost position, first alternative preferred). -/
def dateScan : List Char → Option (List Char)
  | [] => none
  | c :: cs =>
    match matchAlt1 (c :: cs) with
    | some m => some m
    | none =>
      match matchAlt2 (c :: cs) with
      | some m => some m
      | none => dateScan cs

/-- `date.match(/(\d{4}[-\/]\d{1,2}[-\/]\d{1,2})|(\d{1,2}[-\/]\d{1,2}[-\/]\d{4})/)`,
returning `dateMatch[0]` when the regex matches (server.js line 326). -/
def dateRegexMatch (s : String) : Option String :=
  (dateScan s.data).map (fun l => String.mk l)

/-- Consume a literal slash. -/
def expectSlash : List Char → Option (List Char)
  | [] => none
  | c :: r => if c = '/' then some r else none

/-- Match `\d{4}\/\d{2}\/\d{2}` at the current position
(the article-URL heuristic regex, server.js line 224). -/
def dateSegAt (cs : List Char) : Bool :=
  (((takeExactDigits 4 cs).bind (fun p4 => expectSlash p4.2)).bind
    (fun r1 => (takeExactDigits 2 r1).bind (fun p2 => expectSlash p2.2))).bind
    (fun r2 => takeExactDigits 2 r2) |>.isSome

/-- Unanchored search for `\d{4}\/\d{2}\/\d{2}`. -/
def dateSegSearch : List Char → Bool
  | [] => false
  | c :: cs => dateSegAt (c :: cs) || dateSegSearch cs

/-- `absoluteUrl.match(/\d{4}\/\d{2}\/\d{2}/)` as a Bool. -/
def hasDateSeg (s : String) : Bool := dateSegSearch s.data

/-- Strip a literal block from the front, returning the rest on success. -/
def stripFront : List Char → List Char → Option (List Char)
  | [], cs => some cs
  | _ :: _, [] => none
  | p :: ps, c :: cs => if p = c then stripFront ps cs else none

/-- `(\?.*)?$`: the rest of the string is empty or starts with a question mark. -/
def queryTailOk : List Char → Bool
  | [] => true
  | c :: _ => c == '?'

/-- The image extensions of the regex `\.(jpg|jpeg|png|gif|webp)`. -/
def imageExts : List String := ["jpg", "jpeg", "png", "gif", "webp"]

/-- Match `\.(jpg|jpeg|png|gif|webp)(\?.*)?$` at the current position of an
already-lowercased character list. -/
def imageExtAt : List Char → Bool
  | [] => false
  | c :: rest =>
    c == '.' && imageExts.any (fun e =>
      match stripFront e.data rest with
      | some r => queryTailOk r
      | none => false)

/-- Unanchored search for the image-extension pattern. -/
def imageExtSearch : List Char → Bool
  | [] => false
  | c :: cs => imageExtAt (c :: cs) || imageExtSearch cs

/-- `absoluteUrl.match(/\.(jpg|jpeg|png|gif|webp)(\?.*)?$/i)` as a Bool
(server.js line 359).  Case-insensitivity is modelled by lowering the input;
the pattern letters are already lowercase. -/
def imageExtMatch (url : String) : Bool :=
  imageExtSearch (url.data.map Char.toLower)

/-! ## The document model

`Doc.query sel` stands for cheerio's `$(sel)` on the loaded document: the
list of matching elements in document order.  An `Element` carries its
text content (`$(el).text()`), its attributes (`$(el).attr(name)`), and
the `href` attributes of its descendant anchors in order
(`$(el).find('a')` followed by `attr('href')` on each, which is all the
source reads from those anchors). -/
structure Element where
  text : String
  attrs : List (String × String)
  anchorHrefs : List (Option String)
deriving DecidableEq, Repr

/-- `$(el).attr(name)`: `none` models JavaScript `undefined`. -/
def Element.attr (e : Element) (name : String) : Option String :=
  (e.attrs.find? (fun p => p.1 == name)).map (fun p => p.2)

structure Doc where
  query : String → List Element

/-- `$article(selector).first().text().trim()`: the empty selection has empty
text, so this is `""` when nothing matches. -/
def selText (doc : Doc) (sel : String) : String :=
  match (doc.query sel).head? with
  | none => ""
  | some e => jsTrim e.text

/-! ## The selector registry (server.js lines 87-198) -/
structure SelectorProfile where
  article : List String
  title : List String
  author : List String
  date : List String
  image : List String
deriving DecidableEq, Repr

/-- The `'abs-cbn.com'` entry of `websiteSelectors`. -/
def absCbnProfile : SelectorProfile where
  article := [".news-item", ".article-item", ".news-card", ".story-card", "article",
    ".news-list-item", ".news-list__item", ".news-list__article", ".news-list__card",
    ".news-list__story", ".news-list__content", ".news-list__wrapper",
    ".news-list__container", ".news-list__grid", ".news-list__row", ".news-list__col",
    ".news-list__box", ".news-list__panel", ".news-list__block", ".news-list__section"]
  title := [".news-title", ".article-title", ".story-title", "h2", "h3", "h1",
    ".news-list__title", ".news-list__headline", ".news-list__heading",
    ".news-list__name", ".news-list__label", ".news-list__text",
    ".news-list__content h1", ".news-list__content h2", ".news-list__content h3",
    ".news-list__content h4", ".news-list__content h5", ".news-list__content h6"]
  author := [".author", ".byline", ".writer", ".article-author",
    "span[itemprop=\"author\"]", "span.author", "div.author",
    "meta[name=\"author\"]", "meta[property=\"article:author\"]",
    ".news-list__author", ".news-list__byline", ".news-list__writer",
    ".news-list__contributor", ".news-list__reporter", ".news-list__journalist"]
  date := [".date", ".timestamp", ".article-date", ".publish-date", "time",
    "span[itemprop=\"datePublished\"]", "span.date",
    "meta[name=\"pubdate\"]", "meta[property=\"article:published_time\"]",
    ".news-list__date", ".news-list__time", ".news-list__timestamp",
    ".news-list__published", ".news-list__posted", ".news-list__updated"]
  image := ["img.news-image", "img.article-image", "img.story-image",
    ".news-image img", ".article-image img", ".story-image img",
    ".news-list__image img", ".news-list__photo img", ".news-list__thumbnail img",
    ".news-list__media img", ".news-list__picture img", ".news-list__illustration img",
    ".news-list__graphic img", ".news-list__banner img", ".news-list__cover img"]

/-- The `'default'` entry of `websiteSelectors`. -/
def defaultProfile : SelectorProfile where
  article := ["article", ".article", ".post", ".news-item", ".story", ".news-story",
    ".news-article", ".content", ".main-content"]
  title := ["h1", "h2", ".title", ".headline", ".story-title", ".article-title", "h3"]
  author := [".author", ".byline", ".writer", ".author-name", ".article-author",
    ".contributor", "span[itemprop=\"author\"]", "span.author", "div.author",
    "meta[name=\"author\"]", "meta[property=\"article:author\"]"]
  date := [".date", ".published", ".timestamp", "time", ".article-date",
    ".publish-date", ".posted-on", "span[itemprop=\"datePublished\"]", "span.date",
    "meta[name=\"pubdate\"]", "meta[property=\"article:published_time\"]"]
  image := ["img.featured-image", "img.article-image", "img.news-image",
    ".featured-image img", ".article-image img", ".news-image img",
    "img[src*=\"news\"]", "img[src*=\"article\"]"]

/-- The host-keyed registry, as an association list. -/
def websiteSelectors : List (String × SelectorProfile) :=
  [("abs-cbn.com", absCbnProfile), ("default", defaultProfile)]

/-- `websiteSelectors[hostname] || websiteSelectors.default` (server.js line
202) as a plain finite-map lookup with default.  This simplification ignores
the JavaScript prototype chain and therefore agrees with the faithful
`selectorsFor` model below only for hostnames that do not name an
`Object.prototype` member (see `claim9_profile_lookup`); the route model uses
it under that proviso. -/
def profileFor (hostname : String) : SelectorProfile :=
  match websiteSelectors.lookup hostname with
  | some p => p
  | none => defaultProfile

/-- The JavaScript value produced by a bracket access on the selector object
literal: a `SelectorProfile` held as an own property, a truthy member
inherited from `Object.prototype` (a built-in function, or `Object.prototype`
itself for `__proto__`), or `undefined`. -/
inductive JsPropValue where
  | profile : SelectorProfile → JsPropValue
  | protoMember : JsPropValue
  | undef : JsPropValue
deriving DecidableEq, Repr

/-- The string keys every plain object literal inherits from
`Object.prototype`: bracket access with one of these keys returns a truthy
value rather than `undefined`. -/
def objectProtoKeys : List String :=
  ["constructor", "hasOwnProperty", "isPrototypeOf", "propertyIsEnumerable",
   "toLocaleString", "toString", "valueOf", "__proto__",
   "__defineGetter__", "__defineSetter__", "__lookupGetter__", "__lookupSetter__"]

/-- `websiteSelectors[hostname]` with JavaScript property-lookup semantics:
an own property when present, else an inherited `Object.prototype` member
when the key names one, else `undefined`. -/
def bracketLookup (hostname : String) : JsPropValue :=
  match websiteSelectors.lookup hostname with
  | some p => JsPropValue.profile p
  | none =>
    if hostname ∈ objectProtoKeys then JsPropValue.protoMember else JsPropValue.undef

/-- `websiteSelectors[hostname] || websiteSelectors.default` (server.js line
202) under JavaScript semantics: any truthy lookup result — including an
inherited `Object.prototype` member — short-circuits the `||`, and only
`undefined` falls back to the default profile.  In the `protoMember` case
the subsequent `selectors.article.forEach` throws a TypeError, which the
route's outer catch converts into a generic 500 — an error path. -/
def selectorsFor (hostname : String) : JsPropValue :=
  match bracketLookup hostname with
  | JsPropValue.undef => JsPropValue.profile defaultProfile
  | v => v

/-! ## URL classification -/
/-- The article-URL heuristic of server.js lines 221-224, applied to the whole
absolute URL string:
`absoluteUrl.includes('/news/') || absoluteUrl.includes('/article/') ||
 absoluteUrl.includes('/story/') || absoluteUrl.match(/\d{4}\/\d{2}\/\d{2}/)`. -/
def looksLikeArticle (absoluteUrl : String) : Bool :=
  containsSub absoluteUrl "/news/" || containsSub absoluteUrl "/article/" ||
    containsSub absoluteUrl "/story/" || hasDateSeg absoluteUrl

/-- The image-URL validation of server.js lines 355-359, combined into one
predicate on a single URL string (the source applies the `data:`/`svg` guards
to the raw attribute value and the extension regex to the resolved URL; for an
already-absolute attribute value the two strings coincide). -/
def looksLikeImage (url : String) : Bool :=
  !(jsStartsWith url "data:") && !(containsSub url "svg") && imageExtMatch url

/-- Modelled from the spec: the path component of an absolute URL — the part
after the authority (everything following the scheme's `://` up to the first
slash) and before any query string or fragment.  Used only to state the
spec's claim that `looksLikeArticle` inspects the URL *path*; the source has
no such function. -/
def afterScheme : List Char → List Char
  | [] => []
  | c :: cs => if hasPreB [':', '/', '/'] (c :: cs) then cs.drop 2 else afterScheme cs

/-- Modelled from the spec: the URL path (see `afterScheme`). -/
def urlPath (u : String) : String :=
  String.mk (((afterScheme u.data).dropWhile (fun c => c ≠ '/')).takeWhile
    (fun c => c ≠ '?' ∧ c ≠ '#'))

/-- Modelled from the spec: "true if the URL path contains `/news/`,
`/article/`, `/story/`, OR matches a `YYYY/MM/DD`-shaped path segment". -/
def specLooksLikeArticle (u : String) : Bool :=
  containsSub (urlPath u) "/news/" || containsSub (urlPath u) "/article/" ||
    containsSub (urlPath u) "/story/" || hasDateSeg (urlPath u)

/-- Modelled from the spec: "ends (optionally followed by a query string) in
`.jpg|.jpeg|.png|.gif|.webp` (case-insensitive)" — there is a decomposition of
the lowercased URL into a stem, a dot, one of the five extensions, and an
empty-or-question-mark-led tail. -/
def specEndsInImageExt (u : String) : Prop :=
  ∃ stem ext tail, ext ∈ imageExts ∧ (tail = [] ∨ ∃ r, tail = '?' :: r) ∧
    u.data.map Char.toLower = stem ++ '.' :: (ext.data ++ tail)

/-! ## Link discovery (server.js lines 207-255)

`articleLinks` is a JavaScript `Set`, modelled as an insertion-ordered
duplicate-free list.  `resolve href base` stands for `new URL(href,
base).href`; `none` models the constructor throwing (the `catch` branch). -/
/-- `articleLinks.add(u)`. -/
def addLink (links : List String) (u : String) : List String :=
  if u ∈ links then links else links ++ [u]

/-- The per-anchor body shared by both discovery passes: skip a missing or
empty `href`, resolve it (`href.startsWith('http') ? href : new URL(href,
url).href`), skip on resolution failure, and add the absolute URL when it
looks like an article link. -/
def addCandidate (resolve : String → String → Option String) (listUrl : String)
    (links : List String) (href? : Option String) : List String :=
  match href? with
  | none => links
  | some href =>
    if href = "" then links
    else
      match (if jsStartsWith href "http" then some href else resolve href listUrl) with
      | none => links
      | some absoluteUrl =>
        if looksLikeArticle absoluteUrl then addLink links absoluteUrl else links

/-- The inner `links.each` loop over the anchors of one container element. -/
def collectElem (resolve : String → String → Option String) (listUrl : String)
    (links : List String) (el : Element) : List String :=
  el.anchorHrefs.foldl (addCandidate resolve listUrl) links

/-- `$(articleSelector).each` for one selector of `selectors.article`. -/
def collectSel (resolve : String → String → Option String) (listUrl : String)
    (doc : Doc) (links : List String) (sel : String) : List String :=
  (doc.query sel).foldl (collectElem resolve listUrl) links

/-- The selector-driven pass: `selectors.article.forEach(...)`. -/
def selectorPass (resolve : String → String → Option String) (listUrl : String)
    (doc : Doc) (articleSels : List String) : List String :=
  articleSels.foldl (collectSel resolve listUrl doc) []

/-- The general fallback pass: `$('a').each(...)` over the whole document. -/
def generalPass (resolve : String → String → Option String) (listUrl : String)
    (doc : Doc) : List String :=
  (doc.query "a").foldl
    (fun links el => addCandidate resolve listUrl links (el.attr "href")) []

/-- Link discovery: the selector pass, falling back to the general pass when
it found nothing (`if (articleLinks.size === 0)`, server.js line 236). -/
def discoverLinks (resolve : String → String → Option String) (listUrl : String)
    (doc : Doc) (articleSels : List String) : List String :=
  let links := selectorPass resolve listUrl doc articleSels
  if links = [] then generalPass resolve listUrl doc else links

/-! ## Field extraction (server.js lines 274-412) -/
/-- Title loop (server.js lines 275-279): `forEach` over `selectors.title`
with overwrite on non-empty trimmed text, so the last non-empty match wins. -/
def extractTitle (doc : Doc) (sels : List String) : String :=
  sels.foldl (fun title sel => if selText doc sel = "" then title else selText doc sel) ""

/-- Title with the heading fallback (server.js lines 282-284). -/
def titleOf (doc : Doc) (sels : List String) : String :=
  let t := extractTitle doc sels
  if t = "" then selText doc "h1, h2, h3, h4, h5, h6" else t

/-- Author/date loop (server.js lines 287-299 and the identical 302-314):
`forEach` with overwrite; a selector starting with `meta` reads the `content`
attribute, any other reads trimmed text; empty or missing values do not
overwrite. -/
def extractMetaText (doc : Doc) (sels : List String) : String :=
  sels.foldl (fun value sel =>
    match (doc.query sel).head? with
    | none => value
    | some found =>
      if jsStartsWith sel "meta" then
        match found.attr "content" with
        | none => value
        | some content => if content = "" then value else content
      else
        if jsTrim found.text = "" then value else jsTrim found.text) ""

/-- The value a single selector contributes in `extractMetaText` ("" when it
contributes nothing). -/
def metaTextValue (doc : Doc) (sel : String) : String :=
  match (doc.query sel).head? with
  | none => ""
  | some found =>
    if jsStartsWith sel "meta" then (found.attr "content").getD ""
    else jsTrim found.text

/-- Date formatting (server.js lines 317-337).  `parseDate` models "construct
`new Date(s)` and return its ISO string when valid". -/
def formatDate (parseDate : String → Option String) (date : String) : String :=
  if date = "" then ""
  else
    match parseDate date with
    | some iso => iso
    | none =>
      match dateRegexMatch date with
      | some m =>
        match parseDate m with
        | some iso => iso
        | none => ""
      | none => ""

/-- `data-srcset`: `split(',')[0]?.trim().split(' ')[0]` (server.js line 351). -/
def srcsetHead (s : String) : String :=
  String.mk ((jsTrimList (s.data.takeWhile (fun c => c ≠ ','))).takeWhile (fun c => c ≠ ' '))

/-- The candidate source attributes of an image element, in priority order
(server.js lines 345-352). -/
def possibleSrcs (img : Element) : List (Option String) :=
  [img.attr "src", img.attr "data-src", img.attr "data-lazy-src",
    img.attr "data-original", img.attr "data-url",
    (img.attr "data-srcset").map srcsetHead]

/-- The inner `for (const src of possibleSrcs)` loop (server.js lines
354-367): skip missing/empty/`data:`/svg sources, resolve, skip resolution
failures, and break on the first resolved URL passing the extension regex. -/
def tryImageSrcs (resolve : String → String → Option String) (articleUrl : String) :
    List (Option String) → Option String
  | [] => none
  | none :: rest => tryImageSrcs resolve articleUrl rest
  | some src :: rest =>
    if src = "" || jsStartsWith src "data:" || containsSub src "svg" then
      tryImageSrcs resolve articleUrl rest
    else
      match (if jsStartsWith src "http" then some src else resolve src articleUrl) with
      | none => tryImageSrcs resolve articleUrl rest
      | some absoluteUrl =>
        if imageExtMatch absoluteUrl then some absoluteUrl
        else tryImageSrcs resolve articleUrl rest

/-- The image URL one selector contributes (`$article(selector).first()`
followed by the attribute loop), `none` when it contributes nothing. -/
def imageValue (resolve : String → String → Option String) (articleUrl : String)
    (doc : Doc) (sel : String) : Option String :=
  match (doc.query sel).head? with
  | none => none
  | some img => tryImageSrcs resolve articleUrl (possibleSrcs img)

/-- Image selector loop (server.js lines 340-369): `forEach` over
`selectors.image`; a selector whose element yields a valid source OVERWRITES
`imageUrl`, so the LAST contributing selector wins. -/
def extractImageSel (resolve : String → String → Option String) (articleUrl : String)
    (doc : Doc) (sels : List String) : String :=
  sels.foldl (fun imageUrl sel =>
    match (doc.query sel).head? with
    | none => imageUrl
    | some img =>
      match tryImageSrcs resolve articleUrl (possibleSrcs img) with
      | some u => u
      | none => imageUrl) ""

/-- Whole-document `img` fallback (server.js lines 372-401): first success
wins (`if (imageUrl) break`). -/
def imageFallback (resolve : String → String → Option String) (articleUrl : String) :
    List Element → String
  | [] => ""
  | img :: rest =>
    match tryImageSrcs resolve articleUrl (possibleSrcs img) with
    | some u => u
    | none => imageFallback resolve articleUrl rest

/-- The final image URL of one article ("" when nothing was found). -/
def imageOf (resolve : String → String → Option String) (articleUrl : String)
    (doc : Doc) (sels : List String) : String :=
  let u := extractImageSel resolve articleUrl doc sels
  if u = "" then imageFallback resolve articleUrl (doc.query "img") else u

/-! ## Article records and the pipeline (server.js lines 260-445) -/
structure NewsItem where
  title : String
  author : String
  date : String
  source : String
  url : String
  imageUrl : Option String
deriving DecidableEq, Repr

/-- Field extraction plus the guarded push (server.js lines 274-412): emit a
record only when a non-empty title was found, with the `'Unknown'` author
fallback, the current-time date fallback (`now` models
`new Date().toISOString()` at push time) and `imageUrl || null`. -/
def extractRecord (resolve : String → String → Option String)
    (parseDate : String → Option String) (sels : SelectorProfile)
    (hostname now articleUrl : String) (doc : Doc) : Option NewsItem :=
  let title := titleOf doc sels.title
  let author := extractMetaText doc sels.author
  let date := extractMetaText doc sels.date
  let formattedDate := formatDate parseDate date
  let imageUrl := imageOf resolve articleUrl doc sels.image
  if title = "" then none
  else some {
    title := title
    author := if author = "" then "Unknown" else author
    date := if formattedDate = "" then now else formattedDate
    source := hostname
    url := articleUrl
    imageUrl := if imageUrl = "" then none else some imageUrl }

/-- Outcome of fetching one article URL.  `netError` covers transport
errors, timeouts and statuses outside the accepted `[200,500)` range (which
axios raises and the per-article `catch` swallows); `ok` carries an accepted
status and the parsed document. -/
inductive ArticleFetch where
  | netError : ArticleFetch
  | ok : Nat → Doc → ArticleFetch

/-- One iteration of the per-article loop (server.js lines 260-417): any
failure yields no record (the `catch` logs and continues), a non-200 status
is skipped by the `if (articleResponse.status === 200)` guard, and a 200
response is extracted.  Extraction itself is total in this model, matching
the fact that a parse failure is also swallowed by the same `catch`. -/
def processArticle (resolve : String → String → Option String)
    (parseDate : String → Option String) (sels : SelectorProfile)
    (hostname now : String) (fetch : String → ArticleFetch)
    (articleUrl : String) : Option NewsItem :=
  match fetch articleUrl with
  | ArticleFetch.netError => none
  | ArticleFetch.ok status doc =>
    if status = 200 then extractRecord resolve parseDate sels hostname now articleUrl doc
    else none

/-- The whole `for (const articleUrl of articleLinks)` loop, accumulating
successful records in order. -/
def processArticles (resolve : String → String → Option String)
    (parseDate : String → Option String) (sels : SelectorProfile)
    (hostname now : String) (fetch : String → ArticleFetch)
    (urls : List String) : List NewsItem :=
  urls.filterMap (processArticle resolve parseDate sels hostname now fetch)

/-- Outcome of the list-page fetch.  With `validateStatus: 200 <= s < 500`,
axios resolves statuses in that range (`ok`); a status outside it rejects
with a response attached (`errorStatus`, the `error.response` branch of the
outer catch); a transport failure or timeout rejects with no response
(`errorNoResponse`, the `error.request` branch). -/
inductive ListFetch where
  | ok : Nat → Doc → ListFetch
  | errorStatus : Nat → ListFetch
  | errorNoResponse : ListFetch

structure ScrapeResponse where
  status : Nat
  error : Option String
  news : List NewsItem
deriving DecidableEq, Repr

def blockedMsg : String :=
  "Access to this website is forbidden. The website might be blocking scraping attempts."

def fetchFailedMsg (s : Nat) : String :=
  "Failed to fetch the website. Status code: " ++ toString s

def networkErrMsg : String :=
  "No response received from the website. Please check the URL and try again."

def noArticlesMsg : String :=
  "No news articles found. The website might use a different structure or dynamic loading."

def serverRespondedMsg (s : Nat) : String :=
  "Server responded with status " ++ toString s

/-- The `/api/scrape` route after URL validation (server.js lines 60-445):
status classification of the list-page fetch, link discovery, the article
loop, and the empty-result 404.  `hostname` models `new URL(url).hostname`. -/
def scrapeRoute (resolve : String → String → Option String)
    (parseDate : String → Option String) (listUrl hostname now : String)
    (listFetch : ListFetch) (fetchArticle : String → ArticleFetch) : ScrapeResponse :=
  match listFetch with
  | ListFetch.errorStatus s => ⟨s, some (serverRespondedMsg s), []⟩
  | ListFetch.errorNoResponse => ⟨500, some networkErrMsg, []⟩
  | ListFetch.ok status doc =>
    if status = 403 then ⟨403, some blockedMsg, []⟩
    else if status ≠ 200 then ⟨status, some (fetchFailedMsg status), []⟩
    else
      let sels := profileFor hostname
      let items := processArticles resolve parseDate sels hostname now fetchArticle
        (discoverLinks resolve listUrl doc sels.article)
      if items = [] then ⟨404, some noArticlesMsg, []⟩
      else ⟨200, none, items⟩

/-! ## The secondary variants

The capped serverless handler (`unnamed/part_001`) and the extended handler
(`unnamed/part_002`) extract title, author and date with `for...of` loops
that `break` on the FIRST selector matching any element — taking that
element's trimmed text even when it is empty — unlike the `forEach`
overwrite loops of server.js. -/
/-- The `for...break` field loop of part_001 lines 251-275 and part_002
lines 720-744 (used there for title, author and date alike). -/
def extractFieldFB (doc : Doc) : List String → String
  | [] => ""
  | sel :: rest =>
    match (doc.query sel).head? with
    | some el => jsTrim el.text
    | none => extractFieldFB doc rest

/-- The capped variant's image loop (part_001 lines 278-287): break on the
first selector matching an element, read only `src`, resolve when it does not
start with `http`.  `Except.error` models the uncaught `new URL` throw (which
the per-article catch then turns into a skip); `some ""` is the untouched
initial `''`; `none` is JavaScript `undefined` from a missing `src`. -/
def extractImageCapped (resolve : String → String → Option String)
    (articleUrl : String) (doc : Doc) : List String → Except Unit (Option String)
  | [] => Except.ok (some "")
  | sel :: rest =>
    match (doc.query sel).head? with
    | none => extractImageCapped resolve articleUrl doc rest
    | some el =>
      match el.attr "src" with
      | none => Except.ok none
      | some s =>
        if s ≠ "" && !(jsStartsWith s "http") then
          match resolve s articleUrl with
          | some abs => Except.ok (some abs)
          | none => Except.error ()
        else Except.ok (some s)

structure CappedItem where
  title : String
  author : String
  date : String
  image : Option String
  url : String
deriving DecidableEq, Repr

/-- The capped variant's per-article extraction and guarded push (part_001
lines 245-297): no author/date fallbacks, raw unvalidated image. -/
def extractCapped (resolve : String → String → Option String)
    (sels : SelectorProfile) (articleUrl : String) (doc : Doc) : Option CappedItem :=
  let title := extractFieldFB doc sels.title
  let author := extractFieldFB doc sels.author
  let date := extractFieldFB doc sels.date
  match extractImageCapped resolve articleUrl doc sels.image with
  | Except.error _ => none
  | Except.ok image =>
    if title = "" then none
    else some { title := title, author := author, date := date, image := image, url := articleUrl }

/-! ## Concrete fixtures used to witness the theorems below -/
/-- A URL resolver that always fails; the claims hold for every resolver, so
witnesses may use the trivial one. -/
def noResolve : String → String → Option String := fun _ _ => none

/-- A date parser that never parses. -/
def noParse : String → Option String := fun _ => none

/-- A plain text element. -/
def elt (t : String) : Element := ⟨t, [], []⟩

/-- An image element carrying only a `src` attribute. -/
def imgEl (src : String) : Element := ⟨"", [("src", src)], []⟩

/-- A document in which `.a` and `.b` each match one text element. -/
def docAB : Doc :=
  ⟨fun sel => if sel = ".a" then [elt "A"] else if sel = ".b" then [elt "B"] else []⟩

/-- A document in which `.x` and `.y` each match one image element with a
valid absolute source. -/
def docXY : Doc :=
  ⟨fun sel =>
    if sel = ".x" then [imgEl "https://a.com/x.jpg"]
    else if sel = ".y" then [imgEl "https://a.com/y.jpg"] else []⟩

/-- An article document whose only feature is an `h1` titled `T`. -/
def docT : Doc := ⟨fun sel => if sel = "h1" then [elt "T"] else []⟩

/-- A list page with no matching article containers but one anchor to
`/news/123`. -/
def docN : Doc :=
  ⟨fun sel =>
    if sel = "a" then [⟨"", [("href", "https://site.com/news/123")], []⟩] else []⟩

/-- A list page whose `article` container holds one anchor to a different
host. -/
def docC : Doc :=
  ⟨fun sel =>
    if sel = "article" then [⟨"", [], [some "https://other.com/news/1"]⟩] else []⟩

/-- A document matching nothing at all. -/
def emptyDoc : Doc := ⟨fun _ => []⟩

/-- A fetcher for which exactly the URL `bad` fails with a network error. -/
def fetchW : String → ArticleFetch :=
  fun u => if u = "bad" then ArticleFetch.netError else ArticleFetch.ok 200 docT

/-- A fetcher that always returns the `docT` article page. -/
def fetchT : String → ArticleFetch := fun _ => ArticleFetch.ok 200 docT

/-- A fetcher that always fails. -/
def noFetch : String → ArticleFetch := fun _ => ArticleFetch.netError

/-- The record produced by fetching `https://other.com/news/1` from a list
page on `site.com`. -/
def rItemC10 : NewsItem :=
  ⟨"T", "Unknown", "NOW", "site.com", "https://other.com/news/1", none⟩

theorem hasPreB_iff (p l : List Char) : hasPreB p l = true ↔ ∃ t, l = p ++ t := by
  induction p generalizing l with
  | nil => simp [hasPreB]
  | cons a p ih =>
    cases l with
    | nil => simp [hasPreB]
    | cons b l =>
      simp only [hasPreB, Bool.and_eq_true, beq_iff_eq, ih, List.cons_append,
        List.cons.injEq]
      constructor
      · rintro ⟨rfl, t, rfl⟩; exact ⟨t, rfl, rfl⟩
      · rintro ⟨t, rfl, rfl⟩; exact ⟨rfl, t, rfl⟩

theorem hasInB_iff (p l : List Char) : hasInB p l = true ↔ ∃ s t, l = s ++ p ++ t := by
  induction l with
  | nil =>
    simp only [hasInB, hasPreB_iff]
    constructor
    · rintro ⟨t, ht⟩; exact ⟨[], t, by simpa using ht⟩
    · rintro ⟨s, t, ht⟩
      rcases List.append_eq_nil.mp (List.append_eq_nil.mp ht.symm).1 with ⟨rfl, rfl⟩
      exact ⟨t, by simpa using ht⟩
  | cons b l ih =>
    simp only [hasInB, Bool.or_eq_true, hasPreB_iff, ih]
    constructor
    · rintro (⟨t, ht⟩ | ⟨s, t, ht⟩)
      · exact ⟨[], t, by simpa using ht⟩
      · exact ⟨b :: s, t, by simp [ht]⟩
    · rintro ⟨s, t, ht⟩
      cases s with
      | nil => exact Or.inl ⟨t, by simpa using ht⟩
      | cons c s =>
        simp only [List.cons_append, List.cons.injEq] at ht
        exact Or.inr ⟨s, t, ht.2⟩

theorem containsSub_iff (s pat : String) :
    containsSub s pat = true ↔ ∃ a b, s.data = a ++ pat.data ++ b := by
  simp [containsSub, hasInB_iff]

/-! ## Generic fold lemmas -/
theorem foldlOverwriteKeep (v : String → String) (l : List String) (acc : String)
    (h : ∀ s ∈ l, v s = "") :
    l.foldl (fun a s => if v s = "" then a else v s) acc = acc := by
  induction l generalizing acc with
  | nil => rfl
  | cons x xs ih =>
    have hx : v x = "" := h x (List.mem_cons_self x xs)
    simp only [List.foldl_cons, hx, if_pos]
    exact ih acc (fun s hs => h s (List.mem_cons_of_mem x hs))

theorem foldlOverwriteLast (v : String → String) (pre post : List String)
    (sel acc : String) (h : v sel ≠ "") (hp : ∀ s ∈ post, v s = "") :
    (pre ++ sel :: post).foldl (fun a s => if v s = "" then a else v s) acc = v sel := by
  rw [List.foldl_append, List.foldl_cons, if_neg h]
  exact foldlOverwriteKeep v post (v sel) hp

theorem foldlOptKeep (v : String → Option String) (l : List String) (acc : String)
    (h : ∀ s ∈ l, v s = none) :
    l.foldl (fun a s => match v s with | some u => u | none => a) acc = acc := by
  induction l generalizing acc with
  | nil => rfl
  | cons x xs ih =>
    have hx : v x = none := h x (List.mem_cons_self x xs)
    simp only [List.foldl_cons, hx]
    exact ih acc (fun s hs => h s (List.mem_cons_of_mem x hs))

theorem foldlOptLast (v : String → Option String) (pre post : List String)
    (sel acc u : String) (h : v sel = some u) (hp : ∀ s ∈ post, v s = none) :
    (pre ++ sel :: post).foldl (fun a s => match v s with | some w => w | none => a) acc = u := by
  rw [List.foldl_append, List.foldl_cons, h]
  exact foldlOptKeep v post u hp

theorem foldlMemPres {β : Type} (f : List String → β → List String)
    (hf : ∀ acc x a, a ∈ acc → a ∈ f acc x) (l : List β) (acc : List String)
    (a : String) (ha : a ∈ acc) : a ∈ l.foldl f acc := by
  induction l generalizing acc with
  | nil => exact ha
  | cons x xs ih => exact ih (f acc x) (hf acc x a ha)

theorem foldlMemIntro {β : Type} (f : List String → β → List String)
    (hf : ∀ acc x a, a ∈ acc → a ∈ f acc x) (l : List β) (x : β) (hx : x ∈ l)
    (a : String) (hstep : ∀ acc, a ∈ f acc x) (acc : List String) :
    a ∈ l.foldl f acc := by
  induction l generalizing acc with
  | nil => cases hx
  | cons y ys ih =>
    rcases List.mem_cons.mp hx with rfl | hxs
    · exact foldlMemPres f hf ys (f acc x) a (hstep acc)
    · exact ih hxs (f acc y)

/-- Every new value produced by an overwrite fold satisfies `P`; hence the
result is either the initial value or satisfies `P`. -/
theorem foldlOptOrigin (v : String → Option String) (P : String → Prop)
    (hv : ∀ s u, v s = some u → P u) (l : List String) (acc : String)
    (hacc : acc = "" ∨ P acc) :
    (l.foldl (fun a s => match v s with | some u => u | none => a) acc) = "" ∨
      P (l.foldl (fun a s => match v s with | some u => u | none => a) acc) := by
  induction l generalizing acc with
  | nil => exact hacc
  | cons x xs ih =>
    simp only [List.foldl_cons]
    cases hx : v x with
    | none => exact ih acc hacc
    | some u => exact ih u (Or.inr (hv x u hx))

/-! ## Bridge lemmas: the literal loops as overwrite folds -/
theorem extractMetaText_eq (doc : Doc) (sels : List String) :
    extractMetaText doc sels =
      sels.foldl (fun a s => if metaTextValue doc s = "" then a else metaTextValue doc s) "" := by
  unfold extractMetaText
  congr 1
  funext value sel
  unfold metaTextValue
  cases hq : (doc.query sel).head? with
  | none => simp
  | some found =>
    cases hm : jsStartsWith sel "meta" with
    | false => simp
    | true =>
      cases hc : found.attr "content" with
      | none => simp [hc]
      | some content =>
        by_cases hce : content = "" <;> simp [hc, hce]

theorem extractImageSel_eq (resolve : String → String → Option String)
    (articleUrl : String) (doc : Doc) (sels : List String) :
    extractImageSel resolve articleUrl doc sels =
      sels.foldl (fun a s =>
        match imageValue resolve articleUrl doc s with | some u => u | none => a) "" := by
  unfold extractImageSel
  congr 1
  funext a s
  unfold imageValue
  cases (doc.query s).head? with
  | none => rfl
  | some img => rfl

theorem tryImageSrcs_some (resolve : String → String → Option String)
    (articleUrl : String) (l : List (Option String)) (u : String)
    (h : tryImageSrcs resolve articleUrl l = some u) :
    imageExtMatch u = true ∧
      (jsStartsWith u "http" = true ∨ ∃ s, resolve s articleUrl = some u) := by
  induction l with
  | nil => simp [tryImageSrcs] at h
  | cons hd rest ih =>
    cases hd with
    | none => exact ih h
    | some src =>
      rw [tryImageSrcs] at h
      split at h
      · exact ih h
      · split at h
        · exact ih h
        · rename_i habs
          split at h
          · rename_i hext
            cases h
            refine ⟨hext, ?_⟩
            by_cases hh : jsStartsWith src "http" = true
            · rw [if_pos hh] at habs
              cases habs
              exact Or.inl hh
            · rw [if_neg hh] at habs
              exact Or.inr ⟨src, habs⟩
          · exact ih h

theorem imageExtMatch_ne_empty (u : String) (h : imageExtMatch u = true) : u ≠ "" := by
  intro he
  subst he
  exact absurd h (by decide)

theorem imageValue_some (resolve : String → String → Option String)
    (articleUrl : String) (doc : Doc) (sel : String) (u : String)
    (h : imageValue resolve articleUrl doc sel = some u) :
    imageExtMatch u = true ∧
      (jsStartsWith u "http" = true ∨ ∃ s, resolve s articleUrl = some u) := by
  unfold imageValue at h
  cases hq : (doc.query sel).head? with
  | none => rw [hq] at h; cases h
  | some img => rw [hq] at h; exact tryImageSrcs_some resolve articleUrl _ u h

/-- Claim C1 (amended): in the main server.js variant, title, author and date
are extracted with `forEach` overwrite loops, so the LAST selector in the
list contributing a non-empty value (non-empty trimmed text, or a non-empty
`content` attribute for `meta` selectors) determines the field's final
value. -/
theorem claim1_last_match_wins (doc : Doc) (pre post : List String) (sel : String) :
    (selText doc sel ≠ "" → (∀ s ∈ post, selText doc s = "") →
      extractTitle doc (pre ++ sel :: post) = selText doc sel) ∧
    (metaTextValue doc sel ≠ "" → (∀ s ∈ post, metaTextValue doc s = "") →
      extractMetaText doc (pre ++ sel :: post) = metaTextValue doc sel) := by
  constructor
  · intro h hp
    exact foldlOverwriteLast (selText doc) pre post sel "" h hp
  · intro h hp
    rw [extractMetaText_eq]
    exact foldlOverwriteLast (metaTextValue doc) pre post sel "" h hp

/-- Witness for C1: with selector list `[".a", ".b"]` and both matching
non-empty text, the extracted title and author/date values equal the text of
`.b`, the last matching selector. -/
theorem claim1_last_match_wins_witness :
    extractTitle docAB [".a", ".b"] = selText docAB ".b" ∧
    extractMetaText docAB [".a", ".b"] = metaTextValue docAB ".b" :=
  ⟨(claim1_last_match_wins docAB [".a"] [] ".b").1 (by decide) (by simp),
   (claim1_last_match_wins docAB [".a"] [] ".b").2 (by decide) (by simp)⟩

/-- Counterexample to C1 as stated: the claim also cites the `for...break`
loops of the extended and capped variants, but there the FIRST selector that
matches any element wins — with `[".a", ".b"]` both matching, the extracted
value is the text of `.a`, not of `.b`. -/
theorem claim1_counterexample :
    selText docAB ".a" = "A" ∧ selText docAB ".b" = "B" ∧
    extractFieldFB docAB [".a", ".b"] = "A" ∧ ("A" : String) ≠ "B" := by decide

/-- Claim C2 (amended): in server.js the image selector loop is also a
`forEach` overwrite loop — when several selectors match elements yielding a
valid image source, the LAST such selector in the list determines the
returned image URL (only the attribute candidates within one element are
tried first-match-wins). -/
theorem claim2_last_image_selector_wins (resolve : String → String → Option String)
    (articleUrl : String) (doc : Doc) (pre post : List String) (sel u : String)
    (h : imageValue resolve articleUrl doc sel = some u)
    (hp : ∀ s ∈ post, imageValue resolve articleUrl doc s = none) :
    imageOf resolve articleUrl doc (pre ++ sel :: post) = u := by
  have hsel : extractImageSel resolve articleUrl doc (pre ++ sel :: post) = u := by
    rw [extractImageSel_eq]
    exact foldlOptLast (imageValue resolve articleUrl doc) pre post sel "" u h hp
  have hne : u ≠ "" :=
    imageExtMatch_ne_empty u (imageValue_some resolve articleUrl doc sel u h).1
  unfold imageOf
  rw [hsel, if_neg hne]

/-- Witness for C2: with image selector list `[".x", ".y"]` and both matching
valid image sources, the returned image URL is the one from `.y`. -/
theorem claim2_last_image_selector_wins_witness :
    imageOf noResolve "https://site.com/p" docXY [".x", ".y"] = "https://a.com/y.jpg" :=
  claim2_last_image_selector_wins noResolve "https://site.com/p" docXY [".x"] []
    ".y" "https://a.com/y.jpg" (by decide) (by simp)

/-- Counterexample to C2 as stated: both `.x` and `.y` match elements
yielding valid image sources, yet the returned image URL is the one from
`.y` — the LAST matching selector, not the first as claimed. -/
theorem claim2_counterexample :
    imageValue noResolve "https://site.com/p" docXY ".x" = some "https://a.com/x.jpg" ∧
    imageValue noResolve "https://site.com/p" docXY ".y" = some "https://a.com/y.jpg" ∧
    imageOf noResolve "https://site.com/p" docXY [".x", ".y"] = "https://a.com/y.jpg" ∧
    ("https://a.com/y.jpg" : String) ≠ "https://a.com/x.jpg" := by decide

/-- Claim C5: a failing article fetch (network error/timeout, or a non-200
status) contributes nothing and does not abort the loop — the records of the
articles processed before and after it are all still present, in order. -/
theorem claim5_per_article_failure_skipped (resolve : String → String → Option String)
    (parseDate : String → Option String) (sels : SelectorProfile)
    (hostname now : String) (fetch : String → ArticleFetch)
    (pre post : List String) (u : String)
    (h : fetch u = ArticleFetch.netError ∨
      ∃ s doc, fetch u = ArticleFetch.ok s doc ∧ s ≠ 200) :
    processArticles resolve parseDate sels hostname now fetch (pre ++ u :: post) =
      processArticles resolve parseDate sels hostname now fetch pre ++
        processArticles resolve parseDate sels hostname now fetch post := by
  have hnone : processArticle resolve parseDate sels hostname now fetch u = none := by
    rcases h with h | ⟨s, doc, h, hs⟩
    · simp [processArticle, h]
    · simp [processArticle, h, hs]
  simp [processArticles, List.filterMap_append, List.filterMap_cons, hnone]

/-- Witness for C5: the failing middle URL `bad` is skipped and the two good
articles around it are both retained. -/
theorem claim5_per_article_failure_skipped_witness :
    processArticles noResolve noParse defaultProfile "site.com" "NOW" fetchW
        (["https://site.com/news/1"] ++ "bad" :: ["https://site.com/news/2"]) =
      processArticles noResolve noParse defaultProfile "site.com" "NOW" fetchW
          ["https://site.com/news/1"] ++
        processArticles noResolve noParse defaultProfile "site.com" "NOW" fetchW
          ["https://site.com/news/2"] :=
  claim5_per_article_failure_skipped noResolve noParse defaultProfile "site.com" "NOW"
    fetchW ["https://site.com/news/1"] ["https://site.com/news/2"] "bad" (Or.inl rfl)

/-- Claim C9 (amended): for every hostname that does not name an
`Object.prototype` member, the lookup is pure and total — the exact-hostname
registry entry when one exists, the `default` profile otherwise — and on
that domain the simplified `profileFor` agrees with the faithful
JavaScript-semantics model.  (For hostnames such as `constructor` or
`__proto__` the bracket access returns an inherited truthy non-profile and
the request fails with a generic 500; see the counterexample.) -/
theorem claim9_profile_lookup (h : String) (hproto : h ∉ objectProtoKeys) :
    (∀ p, websiteSelectors.lookup h = some p →
      selectorsFor h = JsPropValue.profile p) ∧
    (websiteSelectors.lookup h = none →
      selectorsFor h = JsPropValue.profile defaultProfile) ∧
    selectorsFor h = JsPropValue.profile (profileFor h) := by
  unfold selectorsFor bracketLookup profileFor
  cases hl : websiteSelectors.lookup h with
  | some p =>
    refine ⟨fun p2 hp2 => ?_, fun hp2 => ?_, rfl⟩
    · cases hp2
      rfl
    · cases hp2
  | none =>
    rw [if_neg hproto]
    refine ⟨fun p2 hp2 => ?_, fun _ => rfl, rfl⟩
    cases hp2

/-- Witness for C9: a registered host gets its own profile and an unknown
ordinary host gets the default, through the faithful lookup model. -/
theorem claim9_profile_lookup_witness :
    selectorsFor "abs-cbn.com" = JsPropValue.profile absCbnProfile ∧
    selectorsFor "zzz.example" = JsPropValue.profile defaultProfile :=
  ⟨(claim9_profile_lookup "abs-cbn.com" (by decide)).1 absCbnProfile rfl,
   (claim9_profile_lookup "zzz.example" (by decide)).2.1 rfl⟩

/-- Counterexample to C9 as stated: the hostnames `constructor` and
`__proto__` (both reachable, e.g. from `http://constructor/`) are not in the
registry, yet the JavaScript bracket access finds an inherited truthy
`Object.prototype` member, so `|| websiteSelectors.default` never fires: the
program does not obtain the default profile (or any `SelectorProfile`) and
the request errors instead of proceeding. -/
theorem claim9_counterexample :
    websiteSelectors.lookup "constructor" = none ∧
    selectorsFor "constructor" = JsPropValue.protoMember ∧
    JsPropValue.protoMember ≠ JsPropValue.profile defaultProfile ∧
    websiteSelectors.lookup "__proto__" = none ∧
    selectorsFor "__proto__" = JsPropValue.protoMember := by decide

/-! ## Record invariants (C3) -/
theorem imageFallback_origin (resolve : String → String → Option String)
    (articleUrl : String) (l : List Element) :
    imageFallback resolve articleUrl l = "" ∨
      (jsStartsWith (imageFallback resolve articleUrl l) "http" = true ∨
        ∃ s, resolve s articleUrl = some (imageFallback resolve articleUrl l)) := by
  induction l with
  | nil => exact Or.inl rfl
  | cons img rest ih =>
    rw [imageFallback]
    cases h : tryImageSrcs resolve articleUrl (possibleSrcs img) with
    | none => exact ih
    | some u => exact Or.inr (tryImageSrcs_some resolve articleUrl _ u h).2

theorem imageOf_origin (resolve : String → String → Option String)
    (articleUrl : String) (doc : Doc) (sels : List String) :
    imageOf resolve articleUrl doc sels = "" ∨
      (jsStartsWith (imageOf resolve articleUrl doc sels) "http" = true ∨
        ∃ s, resolve s articleUrl = some (imageOf resolve articleUrl doc sels)) := by
  have hsel := foldlOptOrigin (imageValue resolve articleUrl doc)
    (fun v => jsStartsWith v "http" = true ∨ ∃ s, resolve s articleUrl = some v)
    (fun s u h => (imageValue_some resolve articleUrl doc s u h).2)
    sels "" (Or.inl rfl)
  rw [← extractImageSel_eq] at hsel
  unfold imageOf
  by_cases he : extractImageSel resolve articleUrl doc sels = ""
  · rw [if_pos he]
    exact imageFallback_origin resolve articleUrl (doc.query "img")
  · rw [if_neg he]
    rcases hsel with h | h
    · exact absurd h he
    · exact Or.inr h

/-- Claim C3 (amended): in the main server.js variant, a record is emitted
exactly when a non-empty title was resolved (titleless articles are silently
dropped), and every emitted record has a non-empty title, the `'Unknown'`
author fallback, the `now` date fallback when normalization produced
nothing, and an absolute-or-absent image URL.  `isAbs` is any notion of
absoluteness satisfied by `http`-prefixed strings and by the outputs of the
URL resolver. -/
theorem claim3_record_invariants (resolve : String → String → Option String)
    (parseDate : String → Option String) (sels : SelectorProfile)
    (hostname now articleUrl : String) (doc : Doc) (isAbs : String → Prop)
    (habs1 : ∀ s, jsStartsWith s "http" = true → isAbs s)
    (habs2 : ∀ src base out, resolve src base = some out → isAbs out) :
    (extractRecord resolve parseDate sels hostname now articleUrl doc = none ↔
      titleOf doc sels.title = "") ∧
    ∀ r, extractRecord resolve parseDate sels hostname now articleUrl doc = some r →
      r.title ≠ "" ∧
      (extractMetaText doc sels.author = "" → r.author = "Unknown") ∧
      (formatDate parseDate (extractMetaText doc sels.date) = "" → r.date = now) ∧
      ∀ s, r.imageUrl = some s → isAbs s := by
  unfold extractRecord
  by_cases ht : titleOf doc sels.title = ""
  · rw [if_pos ht]
    exact ⟨by simp [ht], fun r hr => by cases hr⟩
  · rw [if_neg ht]
    refine ⟨by simp [ht], fun r hr => ?_⟩
    cases hr
    refine ⟨ht, fun ha => by simp [ha], fun hd => by simp [hd], fun s hs => ?_⟩
    by_cases hi : imageOf resolve articleUrl doc sels.image = ""
    · rw [if_pos hi] at hs
      cases hs
    · rw [if_neg hi] at hs
      cases hs
      rcases imageOf_origin resolve articleUrl doc sels.image with h | h | h
      · exact absurd h hi
      · exact habs1 _ h
      · rcases h with ⟨src, hsrc⟩
        exact habs2 src articleUrl _ hsrc

/-- Witness for C3: the emitted/dropped dichotomy instantiated on a concrete
article document. -/
theorem claim3_record_invariants_witness :
    extractRecord noResolve noParse defaultProfile "site.com" "NOW"
        "https://site.com/news/1" docT = none ↔
      titleOf docT defaultProfile.title = "" :=
  (claim3_record_invariants noResolve noParse defaultProfile "site.com" "NOW"
    "https://site.com/news/1" docT (fun s => jsStartsWith s "http" = true)
    (fun _ h => h) (fun _ _ _ h => Option.noConfusion h)).1

/-- Counterexample to C3 as stated: the claim also cites the capped variant's
push, which applies no fallbacks — an article with a title but no author
selector match is emitted with an empty author (and an empty-string image),
not with `"Unknown"`. -/
theorem claim3_counterexample :
    extractCapped noResolve defaultProfile "https://site.com/news/1" docT =
      some { title := "T", author := "", date := "", image := some "",
             url := "https://site.com/news/1" } ∧
    ("" : String) ≠ "Unknown" := by decide

/-! ## List-page status classification (C4) -/
/-- Claim C4: the list-page fetch outcome is classified into mutually
distinct terminal conditions — 403 is Blocked with the forbidden message,
any other non-200 propagates the upstream status (with the accepted-range
message below 500 and the rejection message at 500 and above), a
transport/timeout failure is a 500 network error, and a fetch whose
extraction yields no records is a 404 no-articles result rather than an
exception. -/
theorem claim4_status_classification (resolve : String → String → Option String)
    (parseDate : String → Option String) (listUrl hostname now : String)
    (fetchArticle : String → ArticleFetch) (doc : Doc) (s : Nat) :
    scrapeRoute resolve parseDate listUrl hostname now (ListFetch.ok 403 doc)
        fetchArticle = ⟨403, some blockedMsg, []⟩ ∧
    (s ≠ 200 → s ≠ 403 →
      scrapeRoute resolve parseDate listUrl hostname now (ListFetch.ok s doc)
          fetchArticle = ⟨s, some (fetchFailedMsg s), []⟩) ∧
    scrapeRoute resolve parseDate listUrl hostname now ListFetch.errorNoResponse
        fetchArticle = ⟨500, some networkErrMsg, []⟩ ∧
    scrapeRoute resolve parseDate listUrl hostname now (ListFetch.errorStatus s)
        fetchArticle = ⟨s, some (serverRespondedMsg s), []⟩ ∧
    (processArticles resolve parseDate (profileFor hostname) hostname now fetchArticle
        (discoverLinks resolve listUrl doc (profileFor hostname).article) = [] →
      scrapeRoute resolve parseDate listUrl hostname now (ListFetch.ok 200 doc)
          fetchArticle = ⟨404, some noArticlesMsg, []⟩) ∧
    blockedMsg ≠ networkErrMsg ∧
    noArticlesMsg ≠ fetchFailedMsg 404 ∧
    networkErrMsg ≠ serverRespondedMsg 500 := by
  refine ⟨rfl, fun h200 h403 => ?_, rfl, rfl, fun hempty => ?_, by decide, by decide, by decide⟩
  · simp [scrapeRoute, h200, h403]
  · simp [scrapeRoute, hempty]

/-- Witness for C4: a concrete upstream 404 on the list page propagates as a
404 with the fetch-failed message. -/
theorem claim4_status_classification_witness :
    scrapeRoute noResolve noParse "https://site.com" "site.com" "NOW"
        (ListFetch.ok 404 emptyDoc) noFetch = ⟨404, some (fetchFailedMsg 404), []⟩ :=
  (claim4_status_classification noResolve noParse "https://site.com" "site.com" "NOW"
    noFetch emptyDoc 404).2.1 (by decide) (by decide)

/-! ## Link-discovery membership lemmas (C6, C10) -/
theorem addLink_mem_self (links : List String) (u : String) : u ∈ addLink links u := by
  unfold addLink
  split
  · assumption
  · exact List.mem_append_right links (List.mem_singleton.mpr rfl)

theorem addLink_mem_pres (links : List String) (u a : String) (ha : a ∈ links) :
    a ∈ addLink links u := by
  unfold addLink
  split
  · exact ha
  · exact List.mem_append_left [u] ha

theorem addCandidate_mem_pres (resolve : String → String → Option String)
    (listUrl : String) (links : List String) (href? : Option String) (a : String)
    (ha : a ∈ links) : a ∈ addCandidate resolve listUrl links href? := by
  cases href? with
  | none => exact ha
  | some href =>
    simp only [addCandidate]
    by_cases he : href = ""
    · rw [if_pos he]
      exact ha
    · rw [if_neg he]
      cases hres : (if jsStartsWith href "http" = true then some href
          else resolve href listUrl) with
      | none => exact ha
      | some absoluteUrl =>
        show a ∈ if looksLikeArticle absoluteUrl = true then addLink links absoluteUrl
          else links
        by_cases hl : looksLikeArticle absoluteUrl = true
        · rw [if_pos hl]
          exact addLink_mem_pres links absoluteUrl a ha
        · rw [if_neg hl]
          exact ha

theorem addCandidate_mem_self (resolve : String → String → Option String)
    (listUrl : String) (links : List String) (href : String)
    (hh : jsStartsWith href "http" = true) (hla : looksLikeArticle href = true) :
    href ∈ addCandidate resolve listUrl links (some href) := by
  have hne : href ≠ "" := by
    intro he
    subst he
    exact absurd hh (by decide)
  simp only [addCandidate, if_neg hne, if_pos hh, if_pos hla]
  exact addLink_mem_self links href

theorem collectElem_mem_pres (resolve : String → String → Option String)
    (listUrl : String) (links : List String) (el : Element) (a : String)
    (ha : a ∈ links) : a ∈ collectElem resolve listUrl links el :=
  foldlMemPres (addCandidate resolve listUrl)
    (fun acc x b hb => addCandidate_mem_pres resolve listUrl acc x b hb)
    el.anchorHrefs links a ha

theorem collectElem_mem_intro (resolve : String → String → Option String)
    (listUrl : String) (el : Element) (href : String)
    (hhref : some href ∈ el.anchorHrefs)
    (hh : jsStartsWith href "http" = true) (hla : looksLikeArticle href = true)
    (links : List String) : href ∈ collectElem resolve listUrl links el :=
  foldlMemIntro (addCandidate resolve listUrl)
    (fun acc x b hb => addCandidate_mem_pres resolve listUrl acc x b hb)
    el.anchorHrefs (some href) hhref href
    (fun acc => addCandidate_mem_self resolve listUrl acc href hh hla) links

theorem collectSel_mem_pres (resolve : String → String → Option String)
    (listUrl : String) (doc : Doc) (links : List String) (sel : String) (a : String)
    (ha : a ∈ links) : a ∈ collectSel resolve listUrl doc links sel :=
  foldlMemPres (collectElem resolve listUrl)
    (fun acc x b hb => collectElem_mem_pres resolve listUrl acc x b hb)
    (doc.query sel) links a ha

theorem selectorPass_mem (resolve : String → String → Option String)
    (listUrl : String) (doc : Doc) (articleSels : List String) (sel : String)
    (el : Element) (href : String) (hsel : sel ∈ articleSels)
    (hel : el ∈ doc.query sel) (hhref : some href ∈ el.anchorHrefs)
    (hh : jsStartsWith href "http" = true) (hla : looksLikeArticle href = true) :
    href ∈ selectorPass resolve listUrl doc articleSels := by
  unfold selectorPass
  exact foldlMemIntro (collectSel resolve listUrl doc)
    (fun acc x b hb => collectSel_mem_pres resolve listUrl doc acc x b hb)
    articleSels sel hsel href
    (fun acc =>
      foldlMemIntro (collectElem resolve listUrl)
        (fun acc2 x b hb => collectElem_mem_pres resolve listUrl acc2 x b hb)
        (doc.query sel) el hel href
        (fun acc2 => collectElem_mem_intro resolve listUrl el href hhref hh hla acc2) acc) []

theorem generalPass_mem (resolve : String → String → Option String)
    (listUrl : String) (doc : Doc) (el : Element) (href : String)
    (hel : el ∈ doc.query "a") (hattr : el.attr "href" = some href)
    (hh : jsStartsWith href "http" = true) (hla : looksLikeArticle href = true) :
    href ∈ generalPass resolve listUrl doc := by
  unfold generalPass
  exact foldlMemIntro (fun links el => addCandidate resolve listUrl links (el.attr "href"))
    (fun acc x b hb => addCandidate_mem_pres resolve listUrl acc (x.attr "href") b hb)
    (doc.query "a") el hel href
    (fun acc => by
      show href ∈ addCandidate resolve listUrl acc (el.attr "href")
      rw [hattr]
      exact addCandidate_mem_self resolve listUrl acc href hh hla) []

theorem selectorPass_nil (resolve : String → String → Option String)
    (listUrl : String) (doc : Doc) (articleSels : List String)
    (h : ∀ sel ∈ articleSels, doc.query sel = []) :
    selectorPass resolve listUrl doc articleSels = [] := by
  unfold selectorPass
  have : ∀ (sels : List String) (links : List String),
      (∀ sel ∈ sels, doc.query sel = []) →
      sels.foldl (collectSel resolve listUrl doc) links = links := by
    intro sels
    induction sels with
    | nil => intro links _; rfl
    | cons x xs ih =>
      intro links hall
      have hx : collectSel resolve listUrl doc links x = links := by
        unfold collectSel
        rw [hall x (List.mem_cons_self x xs)]
        rfl
      rw [List.foldl_cons, hx]
      exact ih links (fun s hs => hall s (List.mem_cons_of_mem x hs))
  exact this articleSels [] h

/-- `/news/123` contains `/news/`, so a URL containing the former looks like
an article link. -/
theorem looksLikeArticle_of_news123 (href : String)
    (h : containsSub href "/news/123" = true) : looksLikeArticle href = true := by
  have hn : containsSub href "/news/" = true := by
    rcases (containsSub_iff href "/news/123").mp h with ⟨a, b, hab⟩
    refine (containsSub_iff href "/news/").mpr ⟨a, "123".data ++ b, ?_⟩
    rw [hab]
    simp
  unfold looksLikeArticle
  rw [hn]
  simp

/-- Claim C6: the whole-document anchor scan runs exactly when the
selector-driven pass produced nothing, and on a page whose article-container
selectors match nothing, an anchor whose absolute href contains `/news/123`
is discovered by the fallback. -/
theorem claim6_general_fallback (resolve : String → String → Option String)
    (listUrl : String) (doc : Doc) (articleSels : List String) :
    (selectorPass resolve listUrl doc articleSels ≠ [] →
      discoverLinks resolve listUrl doc articleSels =
        selectorPass resolve listUrl doc articleSels) ∧
    (selectorPass resolve listUrl doc articleSels = [] →
      discoverLinks resolve listUrl doc articleSels = generalPass resolve listUrl doc) ∧
    ((∀ sel ∈ articleSels, doc.query sel = []) →
      ∀ el href, el ∈ doc.query "a" → el.attr "href" = some href →
        jsStartsWith href "http" = true → containsSub href "/news/123" = true →
        href ∈ discoverLinks resolve listUrl doc articleSels) := by
  refine ⟨fun h => ?_, fun h => ?_, fun hq el href hel hattr hh hnews => ?_⟩
  · unfold discoverLinks
    rw [if_neg h]
  · unfold discoverLinks
    rw [if_pos h]
  · have hp : selectorPass resolve listUrl doc articleSels = [] :=
      selectorPass_nil resolve listUrl doc articleSels hq
    unfold discoverLinks
    rw [if_pos hp]
    exact generalPass_mem resolve listUrl doc el href hel hattr hh
      (looksLikeArticle_of_news123 href hnews)

/-- Witness for C6: the concrete page `docN` has no matching containers and
one anchor to `/news/123`; that link is discovered. -/
theorem claim6_general_fallback_witness :
    "https://site.com/news/123" ∈
      discoverLinks noResolve "https://site.com" docN defaultProfile.article :=
  (claim6_general_fallback noResolve "https://site.com" docN defaultProfile.article).2.2
    (by decide) ⟨"", [("href", "https://site.com/news/123")], []⟩
    "https://site.com/news/123" (by decide) (by decide) (by decide) (by decide)

/-- The emitted record's `source` field is the request hostname. -/
theorem extractRecord_source (resolve : String → String → Option String)
    (parseDate : String → Option String) (sels : SelectorProfile)
    (hostname now articleUrl : String) (doc : Doc) (r : NewsItem)
    (h : extractRecord resolve parseDate sels hostname now articleUrl doc = some r) :
    r.source = hostname := by
  simp only [extractRecord] at h
  split at h
  · cases h
  · cases h
    rfl

/-- Claim C10: every record in the result is labeled with the hostname of
the originally submitted list-page URL, and link discovery applies no
same-host filter — an absolute href to any host that looks like an article
link enters the candidate set. -/
theorem claim10_source_is_request_host (resolve : String → String → Option String)
    (parseDate : String → Option String) (sels : SelectorProfile)
    (hostname now : String) (fetch : String → ArticleFetch) (urls : List String)
    (listUrl : String) (doc : Doc) (articleSels : List String) :
    (∀ r, r ∈ processArticles resolve parseDate sels hostname now fetch urls →
      r.source = hostname) ∧
    (∀ sel el href, sel ∈ articleSels → el ∈ doc.query sel →
      some href ∈ el.anchorHrefs → jsStartsWith href "http" = true →
      looksLikeArticle href = true →
      href ∈ discoverLinks resolve listUrl doc articleSels) := by
  constructor
  · intro r hr
    rcases List.mem_filterMap.mp hr with ⟨u, _, hpu⟩
    unfold processArticle at hpu
    cases hf : fetch u with
    | netError =>
      simp only [hf] at hpu
      cases hpu
    | ok status d =>
      simp only [hf] at hpu
      by_cases hs : status = 200
      · rw [if_pos hs] at hpu
        exact extractRecord_source resolve parseDate sels hostname now u d r hpu
      · rw [if_neg hs] at hpu
        cases hpu
  · intro sel el href hsel hel hhref hh hla
    have hp : href ∈ selectorPass resolve listUrl doc articleSels :=
      selectorPass_mem resolve listUrl doc articleSels sel el href hsel hel hhref hh hla
    unfold discoverLinks
    rw [if_neg (List.ne_nil_of_mem hp)]
    exact hp

/-- Witness for C10: a cross-host article link is discovered and its record
carries the list page's hostname `site.com`, not `other.com`. -/
theorem claim10_source_is_request_host_witness :
    rItemC10.source = "site.com" ∧
    "https://other.com/news/1" ∈
      discoverLinks noResolve "https://site.com" docC defaultProfile.article := by
  constructor
  · exact (claim10_source_is_request_host noResolve noParse defaultProfile "site.com"
      "NOW" fetchT ["https://other.com/news/1"] "https://site.com" docC
      defaultProfile.article).1 rItemC10 (by decide)
  · exact (claim10_source_is_request_host noResolve noParse defaultProfile "site.com"
      "NOW" fetchT ["https://other.com/news/1"] "https://site.com" docC
      defaultProfile.article).2 "article" ⟨"", [], [some "https://other.com/news/1"]⟩
      "https://other.com/news/1" (by decide) (by decide) (by decide) (by decide)
      (by decide)

/-! ## The article-URL heuristic and the URL path (C7) -/
theorem takeExactDigits_append (n : Nat) (cs b d r : List Char)
    (h : takeExactDigits n cs = some (d, r)) :
    takeExactDigits n (cs ++ b) = some (d, r ++ b) := by
  induction n generalizing cs d r with
  | zero =>
    simp only [takeExactDigits, Option.some.injEq, Prod.mk.injEq] at h
    obtain ⟨rfl, rfl⟩ := h
    rfl
  | succ n ih =>
    cases cs with
    | nil => simp [takeExactDigits] at h
    | cons c cs2 =>
      rw [takeExactDigits] at h
      rw [List.cons_append, takeExactDigits]
      by_cases hd : c.isDigit = true
      · rw [if_pos hd] at h ⊢
        rcases Option.map_eq_some'.mp h with ⟨⟨d2, r2⟩, hrec, hmap⟩
        cases hmap
        rw [ih cs2 d2 r2 hrec]
        rfl
      · rw [if_neg hd] at h
        cases h

theorem expectSlash_append (r b t : List Char) (h : expectSlash r = some t) :
    expectSlash (r ++ b) = some (t ++ b) := by
  cases r with
  | nil => cases h
  | cons c r2 =>
    rw [expectSlash] at h
    rw [List.cons_append, expectSlash]
    by_cases hc : c = '/'
    · rw [if_pos hc] at h ⊢
      cases h
      rfl
    · rw [if_neg hc] at h
      cases h

theorem dateSegAt_append (cs b : List Char) (h : dateSegAt cs = true) :
    dateSegAt (cs ++ b) = true := by
  unfold dateSegAt at h ⊢
  rw [Option.isSome_iff_exists] at h
  obtain ⟨x, hx⟩ := h
  simp only [Option.bind_eq_some] at hx
  obtain ⟨r2, ⟨r1, ⟨⟨d4, s4⟩, h4, hs4⟩, ⟨d2, s2⟩, h2, hs2⟩, hlast⟩ := hx
  rw [Option.isSome_iff_exists]
  obtain ⟨⟨dl, sl⟩, hl⟩ : ∃ p, takeExactDigits 2 r2 = some p :=
    ⟨x, hlast⟩
  refine ⟨(dl, sl ++ b), ?_⟩
  simp only [Option.bind_eq_some]
  exact ⟨r2 ++ b,
    ⟨r1 ++ b, ⟨(d4, s4 ++ b), takeExactDigits_append 4 cs b d4 s4 h4,
      expectSlash_append s4 b r1 hs4⟩,
     (d2, s2 ++ b), takeExactDigits_append 2 r1 b d2 s2 h2,
      expectSlash_append s2 b r2 hs2⟩,
    takeExactDigits_append 2 r2 b dl sl hl⟩

theorem dateSegSearch_append_right (l b : List Char) (h : dateSegSearch l = true) :
    dateSegSearch (l ++ b) = true := by
  induction l with
  | nil => simp [dateSegSearch] at h
  | cons c cs ih =>
    rw [dateSegSearch] at h
    rw [List.cons_append, dateSegSearch]
    simp only [Bool.or_eq_true] at h ⊢
    rcases h with h1 | h2
    · have ha := dateSegAt_append (c :: cs) b h1
      rw [List.cons_append] at ha
      exact Or.inl ha
    · exact Or.inr (ih h2)

theorem dateSegSearch_append_left (a l : List Char) (h : dateSegSearch l = true) :
    dateSegSearch (a ++ l) = true := by
  induction a with
  | nil => exact h
  | cons c cs ih =>
    rw [List.cons_append, dateSegSearch]
    simp only [Bool.or_eq_true]
    exact Or.inr ih

theorem afterScheme_suffix (l : List Char) : ∃ p, l = p ++ afterScheme l := by
  induction l with
  | nil => exact ⟨[], rfl⟩
  | cons c cs ih =>
    rw [afterScheme]
    by_cases hp : hasPreB [':', '/', '/'] (c :: cs) = true
    · rw [if_pos hp]
      exact ⟨c :: cs.take 2, by rw [List.cons_append, List.take_append_drop]⟩
    · rw [if_neg hp]
      obtain ⟨p, hpp⟩ := ih
      exact ⟨c :: p, by rw [List.cons_append, ← hpp]⟩

theorem urlPath_decomp (u : String) : ∃ a b, u.data = a ++ (urlPath u).data ++ b := by
  obtain ⟨p, hp⟩ := afterScheme_suffix u.data
  refine ⟨p ++ (afterScheme u.data).takeWhile (fun c => c ≠ '/'),
    ((afterScheme u.data).dropWhile (fun c => c ≠ '/')).dropWhile
      (fun c => decide (c ≠ '?' ∧ c ≠ '#')), ?_⟩
  have hA : afterScheme u.data =
      (afterScheme u.data).takeWhile (fun c => c ≠ '/') ++
        (afterScheme u.data).dropWhile (fun c => c ≠ '/') :=
    (List.takeWhile_append_dropWhile _ _).symm
  have hD : (afterScheme u.data).dropWhile (fun c => c ≠ '/') =
      ((afterScheme u.data).dropWhile (fun c => c ≠ '/')).takeWhile
          (fun c => decide (c ≠ '?' ∧ c ≠ '#')) ++
        ((afterScheme u.data).dropWhile (fun c => c ≠ '/')).dropWhile
          (fun c => decide (c ≠ '?' ∧ c ≠ '#')) :=
    (List.takeWhile_append_dropWhile _ _).symm
  calc u.data = p ++ afterScheme u.data := hp
    _ = p ++ ((afterScheme u.data).takeWhile (fun c => c ≠ '/') ++
          (afterScheme u.data).dropWhile (fun c => c ≠ '/')) := by rw [← hA]
    _ = p ++ ((afterScheme u.data).takeWhile (fun c => c ≠ '/') ++
          (((afterScheme u.data).dropWhile (fun c => c ≠ '/')).takeWhile
              (fun c => decide (c ≠ '?' ∧ c ≠ '#')) ++
            ((afterScheme u.data).dropWhile (fun c => c ≠ '/')).dropWhile
              (fun c => decide (c ≠ '?' ∧ c ≠ '#')))) := by rw [← hD]
    _ = (p ++ (afterScheme u.data).takeWhile (fun c => c ≠ '/')) ++
          (urlPath u).data ++
          ((afterScheme u.data).dropWhile (fun c => c ≠ '/')).dropWhile
            (fun c => decide (c ≠ '?' ∧ c ≠ '#')) := by
        simp [urlPath, List.append_assoc]

theorem containsSub_of_path (u pat : String)
    (h : containsSub (urlPath u) pat = true) : containsSub u pat = true := by
  rcases (containsSub_iff _ _).mp h with ⟨a, b, hab⟩
  obtain ⟨x, y, hxy⟩ := urlPath_decomp u
  refine (containsSub_iff _ _).mpr ⟨x ++ a, b ++ y, ?_⟩
  rw [hxy, hab]
  simp [List.append_assoc]

theorem hasDateSeg_of_path (u : String) (h : hasDateSeg (urlPath u) = true) :
    hasDateSeg u = true := by
  obtain ⟨x, y, hxy⟩ := urlPath_decomp u
  unfold hasDateSeg at h ⊢
  rw [hxy, List.append_assoc]
  exact dateSegSearch_append_left x _
    (dateSegSearch_append_right (urlPath u).data y h)

/-- Claim C7 (amended): `looksLikeArticle` holds on the spec's three positive
examples and fails on the negative one, and whenever the URL *path* contains
one of the markers the whole-URL test of the source accepts too; but the
source tests the whole URL string, not just the path (see the
counterexample). -/
theorem claim7_article_url_heuristic :
    (looksLikeArticle "https://site.com/news/x" = true ∧
     looksLikeArticle "https://site.com/article/y" = true ∧
     looksLikeArticle "https://site.com/2024/05/01/story" = true ∧
     looksLikeArticle "https://site.com/about" = false) ∧
    ∀ u, specLooksLikeArticle u = true → looksLikeArticle u = true := by
  refine ⟨by decide, fun u h => ?_⟩
  unfold specLooksLikeArticle at h
  unfold looksLikeArticle
  simp only [Bool.or_eq_true] at h ⊢
  rcases h with ((h | h) | h) | h
  · exact Or.inl (Or.inl (Or.inl (containsSub_of_path u "/news/" h)))
  · exact Or.inl (Or.inl (Or.inr (containsSub_of_path u "/article/" h)))
  · exact Or.inl (Or.inr (containsSub_of_path u "/story/" h))
  · exact Or.inr (hasDateSeg_of_path u h)

/-- Witness for C7: a URL whose path contains `/news/` is accepted. -/
theorem claim7_article_url_heuristic_witness :
    looksLikeArticle "https://example.org/news/today" = true :=
  claim7_article_url_heuristic.2 "https://example.org/news/today" (by decide)

/-- Counterexample to C7 as stated: the source inspects the whole URL
string, so a `/news/` occurrence in the query string is accepted even though
the URL path (`/about`) contains none of the markers. -/
theorem claim7_counterexample :
    looksLikeArticle "https://site.com/about?ref=/news/x" = true ∧
    specLooksLikeArticle "https://site.com/about?ref=/news/x" = false := by decide

/-! ## The image-extension regex (C8) -/
theorem stripFront_iff (p cs r : List Char) :
    stripFront p cs = some r ↔ cs = p ++ r := by
  induction p generalizing cs with
  | nil =>
    simp only [stripFront, Option.some.injEq, List.nil_append]
  | cons a ps ih =>
    cases cs with
    | nil =>
      simp [stripFront]
    | cons c cs2 =>
      rw [stripFront]
      by_cases hp : a = c
      · subst hp
        rw [if_pos rfl, ih cs2]
        simp
      · rw [if_neg hp]
        simp only [List.cons_append, List.cons.injEq]
        constructor
        · intro h
          cases h
        · rintro ⟨h, -⟩
          exact absurd h.symm hp

theorem queryTailOk_iff (r : List Char) :
    queryTailOk r = true ↔ (r = [] ∨ ∃ t, r = '?' :: t) := by
  cases r with
  | nil => simp [queryTailOk]
  | cons c t =>
    simp only [queryTailOk, beq_iff_eq]
    constructor
    · intro h
      subst h
      exact Or.inr ⟨t, rfl⟩
    · intro h
      rcases h with h | ⟨t2, ht⟩
      · exact absurd h (by simp)
      · simp only [List.cons.injEq] at ht
        exact ht.1

theorem imageExtAt_iff (cs : List Char) :
    imageExtAt cs = true ↔ ∃ ext tail, ext ∈ imageExts ∧
      (tail = [] ∨ ∃ t, tail = '?' :: t) ∧ cs = '.' :: (ext.data ++ tail) := by
  cases cs with
  | nil =>
    simp [imageExtAt]
  | cons c rest =>
    simp only [imageExtAt, Bool.and_eq_true, beq_iff_eq, List.any_eq_true]
    constructor
    · rintro ⟨hc, e, he, hm⟩
      cases hsf : stripFront e.data rest with
      | none => rw [hsf] at hm; cases hm
      | some r =>
        rw [hsf] at hm
        refine ⟨e, r, he, (queryTailOk_iff r).mp hm, ?_⟩
        rw [hc, (stripFront_iff e.data rest r).mp hsf]
    · rintro ⟨e, tail, he, htail, heq⟩
      injection heq with h1 h2
      refine ⟨h1, e, he, ?_⟩
      rw [(stripFront_iff e.data rest tail).mpr h2]
      exact (queryTailOk_iff tail).mpr htail

theorem imageExtSearch_iff (l : List Char) :
    imageExtSearch l = true ↔ ∃ stem ext tail, ext ∈ imageExts ∧
      (tail = [] ∨ ∃ t, tail = '?' :: t) ∧ l = stem ++ '.' :: (ext.data ++ tail) := by
  induction l with
  | nil =>
    simp only [imageExtSearch]
    constructor
    · intro h
      cases h
    · rintro ⟨stem, ext, tail, -, -, h⟩
      exact absurd h.symm (by simp)
  | cons c cs ih =>
    rw [imageExtSearch]
    simp only [Bool.or_eq_true]
    constructor
    · rintro (h | h)
      · rcases (imageExtAt_iff (c :: cs)).mp h with ⟨ext, tail, he, ht, heq⟩
        exact ⟨[], ext, tail, he, ht, by simpa using heq⟩
      · rcases ih.mp h with ⟨stem, ext, tail, he, ht, heq⟩
        exact ⟨c :: stem, ext, tail, he, ht, by simp [heq]⟩
    · rintro ⟨stem, ext, tail, he, ht, heq⟩
      cases stem with
      | nil =>
        exact Or.inl ((imageExtAt_iff (c :: cs)).mpr ⟨ext, tail, he, ht, by simpa using heq⟩)
      | cons s ss =>
        rw [List.cons_append] at heq
        injection heq with _ h2
        exact Or.inr (ih.mpr ⟨ss, ext, tail, he, ht, h2⟩)

/-- Claim C8: `looksLikeImage` is true exactly when the URL is not a
data-URI, does not contain `svg`, and ends — optionally followed by a query
string — in one of the five image extensions, case-insensitively; the
spec's three instances hold. -/
theorem claim8_image_url_validation :
    (looksLikeImage "https://site.com/a.jpg?w=200" = true ∧
     looksLikeImage "data:image/png;base64,AAAA" = false ∧
     looksLikeImage "https://site.com/icon.svg" = false) ∧
    ∀ u, looksLikeImage u = true ↔
      (jsStartsWith u "data:" = false ∧ containsSub u "svg" = false ∧
        specEndsInImageExt u) := by
  refine ⟨by decide, fun u => ?_⟩
  unfold looksLikeImage specEndsInImageExt imageExtMatch
  simp only [Bool.and_eq_true, Bool.not_eq_true']
  exact ⟨fun h => ⟨h.1.1, h.1.2, (imageExtSearch_iff _).mp h.2⟩,
    fun h => ⟨⟨h.1, h.2.1⟩, (imageExtSearch_iff _).mpr h.2.2⟩⟩

/-- Witness for C8: the equivalence applied to a concrete accepted URL. -/
theorem claim8_image_url_validation_witness :
    jsStartsWith "https://cdn.example/pic.png" "data:" = false ∧
    containsSub "https://cdn.example/pic.png" "svg" = false ∧
    specEndsInImageExt "https://cdn.example/pic.png" :=
  (claim8_image_url_validation.2 "https://cdn.example/pic.png").mp (by decide)
